import Mathlib

/-!
Shallow embedding of the fit-ranks repository (a fitness-tracking CRUD
application) for checking its natural-language specification.

Sources embedded here:
* `src/src/pages/Workout.tsx` — workout builder state and operations
  (`addExercise`, `updateSet`, `addSet`, `removeSet`, `removeExercise`,
  `saveWorkout`), the social feed like toggle (`handleLike`), and the
  leaderboard ranking (`fetchLeaderboardData`).
* `src/src/lib/validations.ts` — the zod `workoutSchema`.
* `src/unnamed/part_001` (Analytics page) — `fetchAnalyticsData` average
  workout duration.
* `src/unnamed/part_002` (Dashboard page) — level/XP progress display.
* `src/supabase/migrations/…_2c020eee.sql` — table shapes and the unique
  constraints on `personal_bests` and `user_achievements`.

JavaScript strings are modelled as `List Char` (one entry per UTF-16 unit of
the source strings; all concrete strings used here are ASCII, where the two
notions coincide).  Numeric columns typed `DECIMAL`/`NUMERIC` and JS numbers
produced by `parseFloat` are modelled as `ℚ`; `INTEGER` columns and
`parseInt` results as `ℤ`; array indices and lengths as `ℕ`.
-/

namespace FitRanks

/-- JS string: a sequence of characters. -/
abbrev Str := List Char

/-- `String.prototype.trim()`: strip leading and trailing whitespace. -/
def jsTrim (s : Str) : Str :=
  ((s.dropWhile Char.isWhitespace).reverse.dropWhile Char.isWhitespace).reverse

namespace Workout

/-- Client-side builder state for one exercise inside the workout form
(`interface WorkoutExercise` in `Workout.tsx`): `sets` with the parallel
per-set arrays `reps` and `weight`. -/
structure WorkoutExercise where
  exerciseId : Str
  exerciseName : Str
  sets : Nat
  reps : List Int
  weight : List Rat
  deriving DecidableEq, Repr

/-- `addExercise`: append a fresh exercise with `sets: 1, reps: [0],
weight: [0]` to the builder state. -/
def addExercise (l : List WorkoutExercise) : List WorkoutExercise :=
  l ++ [{ exerciseId := [], exerciseName := [], sets := 1, reps := [0], weight := [0] }]

/-- Apply `f` to the element at position `i`, leaving the list unchanged when
`i` is out of range (the UI only calls the set operations with an in-range
exercise index). -/
def modifyAt (i : Nat) (f : α → α) : List α → List α
  | [] => []
  | x :: xs =>
    match i with
    | 0 => f x :: xs
    | i' + 1 => x :: modifyAt i' f xs

/-- `updateSet` with `field === 'reps'`:
`updated[exerciseIndex].reps[setIndex] = value`. -/
def updateSetReps (i j : Nat) (v : Int) (l : List WorkoutExercise) : List WorkoutExercise :=
  modifyAt i (fun e => { e with reps := e.reps.set j v }) l

/-- `updateSet` with `field === 'weight'`:
`updated[exerciseIndex].weight[setIndex] = value`. -/
def updateSetWeight (i j : Nat) (v : Rat) (l : List WorkoutExercise) : List WorkoutExercise :=
  modifyAt i (fun e => { e with weight := e.weight.set j v }) l

/-- `addSet`: increment `sets` and push a `0` onto both `reps` and `weight`
of the exercise at position `i`. -/
def addSet (i : Nat) (l : List WorkoutExercise) : List WorkoutExercise :=
  modifyAt i (fun e =>
    { e with sets := e.sets + 1, reps := e.reps ++ [0], weight := e.weight ++ [0] }) l

/-- `removeSet`: when the exercise has more than one set, decrement `sets` and
splice out entry `j` of both `reps` and `weight`. -/
def removeSet (i j : Nat) (l : List WorkoutExercise) : List WorkoutExercise :=
  modifyAt i (fun e =>
    if 1 < e.sets then
      { e with sets := e.sets - 1, reps := e.reps.eraseIdx j, weight := e.weight.eraseIdx j }
    else e) l

/-- `removeExercise`: `workoutExercises.filter((_, i) => i !== index)`. -/
def removeExercise (i : Nat) (l : List WorkoutExercise) : List WorkoutExercise :=
  l.eraseIdx i

/-- Row written to the `workouts` table by `saveWorkout`. -/
structure WorkoutRow where
  id : Nat
  user_id : Nat
  name : Str
  duration_minutes : Int
  deriving DecidableEq, Repr

/-- Row written to the `workout_exercises` table by `saveWorkout`. -/
structure WorkoutExerciseRow where
  workout_id : Nat
  exercise_id : Str
  sets : Nat
  reps : List Int
  weight : List Rat
  deriving DecidableEq, Repr

/-- The exercise rows `saveWorkout` builds once the workout row exists:
`workoutExercises.filter(ex => ex.exerciseId).map(ex => …)` (a JS string is
truthy exactly when it is non-empty). -/
def exercisePayload (workoutId : Nat) (exs : List WorkoutExercise) :
    List WorkoutExerciseRow :=
  (exs.filter (fun ex => ex.exerciseId ≠ [])).map (fun ex =>
    { workout_id := workoutId, exercise_id := ex.exerciseId,
      sets := ex.sets, reps := ex.reps, weight := ex.weight })

/-- The guard at the top of `saveWorkout`:
`if (!user || !workoutName.trim() || workoutExercises.length === 0)` shows a
toast and returns without issuing any write. -/
def saveWorkoutRejects (userPresent : Bool) (workoutName : Str)
    (exs : List WorkoutExercise) : Bool :=
  !userPresent || jsTrim workoutName = [] || exs.length = 0

/-- The writes `saveWorkout` issues when the guard passes: one `workouts`
insert with `duration_minutes: 0` (hard-coded, "Will be calculated") followed
by the `workout_exercises` inserts; `none` when the guard rejects. -/
def saveWorkoutWrites (userPresent : Bool) (uid : Nat) (workoutName : Str)
    (exs : List WorkoutExercise) (newWorkoutId : Nat) :
    Option (WorkoutRow × List WorkoutExerciseRow) :=
  if saveWorkoutRejects userPresent workoutName exs then none
  else some
    ({ id := newWorkoutId, user_id := uid, name := workoutName, duration_minutes := 0 },
     exercisePayload newWorkoutId exs)

end Workout

namespace Dashboard

/-- Points shown as earned within the current level: the sub-expression
`(profile?.total_points || 0) % 1000` of the progress-bar width in the
Dashboard page. -/
def pointsInCurrentLevel (totalPoints : Nat) : Nat :=
  totalPoints % 1000

/-- Progress-bar width percentage:
`Math.min(((profile?.total_points || 0) % 1000) / 10, 100)`. -/
def levelProgressPercent (totalPoints : Nat) : Rat :=
  min (((totalPoints % 1000 : Nat) : Rat) / 10) 100

/-- XP-to-next-level label: `1000 - ((profile?.total_points || 0) % 1000)`. -/
def xpToNextLevel (totalPoints : Nat) : Nat :=
  1000 - totalPoints % 1000

end Dashboard

namespace Social

/-- A `workout_shares` row as relevant to the like toggle: its id and the
denormalized `likes_count` column (INTEGER DEFAULT 0). -/
structure ShareRow where
  id : Nat
  likes_count : Int
  deriving DecidableEq, Repr

/-- A `workout_likes` row; the table carries `UNIQUE(share_id, user_id)`. -/
structure LikeRow where
  share_id : Nat
  user_id : Nat
  deriving DecidableEq, Repr

/-- Combined store-side and client-side state touched by `handleLike` in the
Social page: the `workout_shares` and `workout_likes` tables, the client's
`likedWorkouts` set of share ids, and the client's `sharedWorkouts` copies
whose `likes_count` the page displays. -/
structure SocialState where
  dbShares : List ShareRow
  dbLikes : List LikeRow
  likedWorkouts : List Nat
  sharedWorkouts : List ShareRow
  deriving DecidableEq, Repr

/-- `handleLike(shareId)` for user `u`.  When the client believes the share is
liked it deletes the matching `workout_likes` rows, removes the id from
`likedWorkouts` and decrements the displayed count; otherwise it inserts a
`workout_likes` row, adds the id and increments the displayed count.  An
insert that violates the `UNIQUE(share_id, user_id)` constraint throws, so the
catch block leaves every piece of state unchanged.  The stored
`workout_shares.likes_count` column is not part of either branch. -/
def handleLike (u sid : Nat) (s : SocialState) : SocialState :=
  if s.likedWorkouts.contains sid then
    { s with
      dbLikes := s.dbLikes.filter (fun r => !(r.share_id = sid ∧ r.user_id = u)),
      likedWorkouts := s.likedWorkouts.filter (fun x => x ≠ sid),
      sharedWorkouts := s.sharedWorkouts.map (fun w =>
        if w.id = sid then { w with likes_count := w.likes_count - 1 } else w) }
  else
    if s.dbLikes.any (fun r => r.share_id = sid ∧ r.user_id = u) then s
    else
      { s with
        dbLikes := { share_id := sid, user_id := u } :: s.dbLikes,
        likedWorkouts := sid :: s.likedWorkouts,
        sharedWorkouts := s.sharedWorkouts.map (fun w =>
          if w.id = sid then { w with likes_count := w.likes_count + 1 } else w) }

/-- The likes count the feed displays for share `sid` (client copy). -/
def displayedLikes (s : SocialState) (sid : Nat) : Option Int :=
  (s.sharedWorkouts.find? (fun w => w.id = sid)).map (fun w => w.likes_count)

/-- The likes count stored in the `workout_shares` table for share `sid`. -/
def storedLikes (s : SocialState) (sid : Nat) : Option Int :=
  (s.dbShares.find? (fun w => w.id = sid)).map (fun w => w.likes_count)

end Social

namespace Leaderboard

/-- The profile columns `fetchLeaderboardData` selects and ranks on. -/
structure LbProfile where
  user_id : Nat
  total_points : Int
  deriving DecidableEq, Repr

/-- Insert a profile into a list already ordered by `total_points`
descending, keeping it ordered. -/
def insertDesc (p : LbProfile) : List LbProfile → List LbProfile
  | [] => [p]
  | q :: qs => if q.total_points < p.total_points then p :: q :: qs else q :: insertDesc p qs

/-- The store-side `.order('total_points', { ascending: false })`: a
permutation of the profiles ordered by `total_points` descending.  The order
among profiles with equal points is unspecified at the store boundary; this
model fixes one such tie-break. -/
def sortByPointsDesc : List LbProfile → List LbProfile
  | [] => []
  | p :: ps => insertDesc p (sortByPointsDesc ps)

/-- `usersWithWorkouts.findIndex(u => u.user_id === user.id)`: JS `findIndex`,
returning `-1` when no element matches. -/
def findIndex (p : LbProfile → Bool) : List LbProfile → Int
  | [] => -1
  | x :: xs => if p x then 0 else
      let r := findIndex p xs
      if r < 0 then -1 else r + 1

/-- `setUserRank(userIndex >= 0 ? userIndex + 1 : null)`: the rank assigned to
a user is their 0-based position in the descending ordering plus one. -/
def userRank (sorted : List LbProfile) (uid : Nat) : Option Int :=
  let idx := findIndex (fun p => p.user_id = uid) sorted
  if 0 ≤ idx then some (idx + 1) else none

/-- Rank of a user over the raw profile list, composing the store-side sort
with the client-side position lookup. -/
def leaderboardRank (profiles : List LbProfile) (uid : Nat) : Option Int :=
  userRank (sortByPointsDesc profiles) uid

/-- Number of profiles strictly ahead of `p` (strictly more points). -/
def strictlyAhead (profiles : List LbProfile) (p : LbProfile) : Nat :=
  (profiles.filter (fun q => p.total_points < q.total_points)).length

end Leaderboard

namespace Analytics

/-- One `workouts` row as used by the average computation: its nullable
`duration_minutes` column. -/
structure DurationRow where
  duration_minutes : Option Rat
  deriving DecidableEq, Repr

/-- The rows returned by
`select('duration_minutes').not('duration_minutes', 'is', null)`:
only the workouts whose duration is non-null. -/
def nonNullRows (ws : List DurationRow) : List DurationRow :=
  ws.filter (fun w => w.duration_minutes.isSome)

/-- `workouts.reduce((sum, w) => sum + (w.duration_minutes || 0), 0)`. -/
def durationSum (rows : List DurationRow) : Rat :=
  rows.foldl (fun sum w => sum + w.duration_minutes.getD 0) 0

/-- `avgTime`: the sum over the non-null rows divided by their number, and
`0` when there are no such rows. -/
def avgTime (ws : List DurationRow) : Rat :=
  let rows := nonNullRows ws
  if 0 < rows.length then durationSum rows / rows.length else 0

/-- `averageWorkoutTime: Math.round(avgTime)` as stored in the analytics
state (`Math.round` and `round` both map `x` to `⌊x + 1/2⌋`). -/
def averageWorkoutTime (ws : List DurationRow) : Int :=
  round (avgTime ws)

/-- Modelled from the spec: "arithmetic mean of `duration_minutes` over all
of a user's workouts with non-null duration; zero when no such workouts
exist" (§4.2).  Spec-side definition, to be compared with `avgTime`. -/
def specMeanDuration (ws : List DurationRow) : Rat :=
  let ds := ws.filterMap (fun w => w.duration_minutes)
  if ds = [] then 0 else ds.sum / ds.length

end Analytics

namespace Validations

/-- Input shape accepted by the zod `workoutSchema`: `name` is required,
`notes` and `duration_minutes` are optional. -/
structure WorkoutInput where
  name : Str
  notes : Option Str
  duration_minutes : Option Rat
  deriving DecidableEq, Repr

/-- A zod issue: the offending field's name and its declared message. -/
structure Issue where
  field : Str
  message : Str
  deriving DecidableEq, Repr

/-- The issues `workoutSchema.parse` raises, in declaration order:
`name` is trimmed then checked against `.min(1)`/`.max(100)`, `notes`
against `.max(500)` when present, `duration_minutes` against
`.min(1)`/`.max(600)` when present. -/
def workoutSchemaIssues (w : WorkoutInput) : List Issue :=
  (if (jsTrim w.name).length < 1 then
    [{ field := "name".toList, message := "Workout name is required".toList }] else []) ++
  (if 100 < (jsTrim w.name).length then
    [{ field := "name".toList,
       message := "Workout name must be less than 100 characters".toList }] else []) ++
  (match w.notes with
   | none => []
   | some s =>
     if 500 < s.length then
       [{ field := "notes".toList,
          message := "Notes must be less than 500 characters".toList }] else []) ++
  (match w.duration_minutes with
   | none => []
   | some d =>
     (if d < 1 then
       [{ field := "duration_minutes".toList,
          message := "Duration must be at least 1 minute".toList }] else []) ++
     (if 600 < d then
       [{ field := "duration_minutes".toList,
          message := "Duration must be less than 600 minutes".toList }] else []))

/-- `workoutSchema` accepts the input exactly when parsing raises no issue. -/
def workoutSchemaAccepts (w : WorkoutInput) : Bool :=
  workoutSchemaIssues w = []

end Validations

namespace Store

/-- A `personal_bests` row (migration `…_2c020eee.sql`): all four metric
columns are nullable and the table carries `UNIQUE(user_id, exercise_id)`. -/
structure PersonalBest where
  user_id : Nat
  exercise_id : Str
  best_weight : Option Rat
  best_reps : Option Int
  best_distance_km : Option Rat
  best_duration_seconds : Option Int
  deriving DecidableEq, Repr

/-- The tables `saveWorkout` can reach in the store. -/
structure DB where
  workouts : List Workout.WorkoutRow
  workout_exercises : List Workout.WorkoutExerciseRow
  personal_bests : List PersonalBest
  deriving DecidableEq, Repr

/-- The full store transition of `saveWorkout`: when the guard rejects, no
write is issued; otherwise a `workouts` row (with id the next fresh id) and
the `workout_exercises` payload are inserted.  `saveWorkout` issues no other
statement — in particular it never touches `personal_bests`. -/
def saveWorkoutDb (db : DB) (userPresent : Bool) (uid : Nat) (workoutName : Str)
    (exs : List Workout.WorkoutExercise) : DB :=
  match Workout.saveWorkoutWrites userPresent uid workoutName exs db.workouts.length with
  | none => db
  | some (w, rows) =>
    { db with
      workouts := db.workouts ++ [w],
      workout_exercises := db.workout_exercises ++ rows }

/-- The stored `personal_bests.best_weight` for `(uid, eid)`, if a row
exists (`UNIQUE(user_id, exercise_id)` makes it unique). -/
def bestWeightOf (db : DB) (uid : Nat) (eid : Str) : Option (Option Rat) :=
  (db.personal_bests.find? (fun pb => pb.user_id = uid ∧ pb.exercise_id = eid)).map
    (fun pb => pb.best_weight)

end Store

namespace Achievements

/-- An `achievements` reference row: the unlock threshold and the points it
grants (`requirement_type` selects which user aggregate `currentAggregate`
is; for "First Workout" it is `workouts_count` with value 1). -/
structure AchievementDef where
  id : Nat
  requirement_value : Nat
  points_reward : Int
  deriving DecidableEq, Repr

/-- Gamification state: the `user_achievements` rows as
`(user_id, achievement_id)` pairs, plus each user's `total_points`. -/
structure GamState where
  user_achievements : List (Nat × Nat)
  total_points : Nat → Int

/-- Insert respecting `UNIQUE(user_id, achievement_id)` from the migration:
a duplicate key leaves the table unchanged instead of adding a second row. -/
def insertUnique (k : Nat × Nat) (t : List (Nat × Nat)) : List (Nat × Nat) :=
  if k ∈ t then t else k :: t

/-- Modelled from the spec: the achievement-unlock evaluation itself is not
in `src/` (only the `user_achievements` schema with its unique constraint
is); §4.2 says "for each achievement definition, evaluate `requirement_type`
… against the user's current aggregate; if the threshold is met and no
user_achievement row exists yet, grant one and add `points_reward` to
`total_points`". -/
def evalAchievement (u : Nat) (a : AchievementDef) (currentAggregate : Nat)
    (s : GamState) : GamState :=
  if a.requirement_value ≤ currentAggregate ∧ (u, a.id) ∉ s.user_achievements then
    { user_achievements := insertUnique (u, a.id) s.user_achievements,
      total_points := fun v =>
        if v = u then s.total_points v + a.points_reward else s.total_points v }
  else s

end Achievements

open Workout Dashboard Social Leaderboard Analytics Validations Store Achievements

/-! ## Claim C10 -/

/-- Claim C10: every workout row persisted by `saveWorkout` has
`duration_minutes` equal to the hard-coded constant `0`, regardless of user
input, and `0` is never a value of the validated range `[1, 600]`. -/
theorem C10_duration_minutes_hardcoded_zero (up : Bool) (uid : Nat) (name : Str)
    (exs : List Workout.WorkoutExercise) (wid : Nat) (w : Workout.WorkoutRow)
    (rows : List Workout.WorkoutExerciseRow)
    (h : Workout.saveWorkoutWrites up uid name exs wid = some (w, rows)) :
    w.duration_minutes = 0 ∧ ¬(1 ≤ w.duration_minutes ∧ w.duration_minutes ≤ 600) := by
  unfold Workout.saveWorkoutWrites at h
  split at h
  · exact absurd h (by simp)
  · have hpair := Option.some.inj h
    rw [Prod.mk.injEq] at hpair
    obtain ⟨hw, -⟩ := hpair
    subst hw
    exact ⟨rfl, by simp⟩

/-- Witness for C10 at a concrete saved workout. -/
theorem C10_witness :
    ((⟨0, 0, ['P'], 0⟩ : Workout.WorkoutRow).duration_minutes = 0) ∧
    ¬(1 ≤ (⟨0, 0, ['P'], 0⟩ : Workout.WorkoutRow).duration_minutes ∧
      (⟨0, 0, ['P'], 0⟩ : Workout.WorkoutRow).duration_minutes ≤ 600) :=
  C10_duration_minutes_hardcoded_zero true 0 ['P']
    [⟨['e'], [], 1, [0], [0]⟩] 0
    (⟨0, 0, ['P'], 0⟩ : Workout.WorkoutRow)
    [(⟨0, ['e'], 1, [0], [0]⟩ : Workout.WorkoutExerciseRow)] (by decide)

/-! ## Claim C4 -/

/-- Claim C4 (amended): `saveWorkout` rejects a submission before any write
exactly when the user is absent, the trimmed name is empty, or no exercise
was added; the declared schema bounds (name length at most 100, duration in
`[1, 600]`) are not checked on this path. -/
theorem C4_saveWorkout_guard_exact (up : Bool) (uid : Nat) (name : Str)
    (exs : List Workout.WorkoutExercise) (wid : Nat) :
    Workout.saveWorkoutWrites up uid name exs wid = none ↔
      (up = false ∨ jsTrim name = [] ∨ exs = []) := by
  have hreject : (Workout.saveWorkoutRejects up name exs = true) ↔
      (up = false ∨ jsTrim name = [] ∨ exs = []) := by
    simp [Workout.saveWorkoutRejects, List.length_eq_zero, or_assoc]
  unfold Workout.saveWorkoutWrites
  split <;> rename_i h
  · simpa using hreject.mp h
  · simpa using fun hR => h (hreject.mpr hR)

/-- Counterexample to C4 as stated: a submission whose name has trimmed
length 101 — outside the declared constraint `[1, 100]` — is not rejected by
`saveWorkout`; the writes are issued anyway. -/
theorem C4_counterexample :
    (jsTrim (List.replicate 101 'a')).length = 101 ∧
    ¬(jsTrim (List.replicate 101 'a')).length ≤ 100 ∧
    Workout.saveWorkoutWrites true 0 (List.replicate 101 'a')
      [{ exerciseId := ['e'], exerciseName := [], sets := 1, reps := [0], weight := [0] }]
      0 ≠ none := by
  refine ⟨by decide, by decide, ?_⟩
  decide

/-! ## Claim C5 -/

/-- Claim C5: the level-progress display computes `total_points % 1000` as
points earned within the current level and `1000 - total_points % 1000` as XP
remaining; the two always split 1000, and at `total_points = 1450` they are
450 and 550 (a 45% bar). -/
theorem C5_level_progress (p : Nat) :
    Dashboard.pointsInCurrentLevel p = p % 1000 ∧
    Dashboard.xpToNextLevel p = 1000 - p % 1000 ∧
    Dashboard.pointsInCurrentLevel p < 1000 ∧
    Dashboard.pointsInCurrentLevel p + Dashboard.xpToNextLevel p = 1000 ∧
    Dashboard.pointsInCurrentLevel 1450 = 450 ∧
    Dashboard.xpToNextLevel 1450 = 550 ∧
    Dashboard.levelProgressPercent 1450 = 45 := by
  have hlt : p % 1000 < 1000 := Nat.mod_lt p (by norm_num)
  refine ⟨rfl, rfl, hlt, ?_, by decide, by decide, ?_⟩
  · unfold Dashboard.pointsInCurrentLevel Dashboard.xpToNextLevel
    omega
  · unfold Dashboard.levelProgressPercent
    norm_num

/-! ## Claim C1 -/

/-- Claim C1 (amended): `saveWorkout` issues no write to `personal_bests` at
all — recording a workout leaves every stored personal-best row, and in
particular every stored `best_weight`, exactly as it was (so it never
decreases, but it is not replaced by an improving candidate either). -/
theorem C1_saveWorkout_leaves_personal_bests (db : Store.DB) (up : Bool) (uid : Nat)
    (name : Str) (exs : List Workout.WorkoutExercise) :
    (Store.saveWorkoutDb db up uid name exs).personal_bests = db.personal_bests ∧
    ∀ u e, Store.bestWeightOf (Store.saveWorkoutDb db up uid name exs) u e =
      Store.bestWeightOf db u e := by
  have hpb : (Store.saveWorkoutDb db up uid name exs).personal_bests = db.personal_bests := by
    unfold Store.saveWorkoutDb
    cases Workout.saveWorkoutWrites up uid name exs db.workouts.length with
    | none => rfl
    | some wr => rfl
  exact ⟨hpb, fun u e => by unfold Store.bestWeightOf; rw [hpb]⟩

/-- Counterexample to C1 as stated: a user with stored `best_weight = 50`
records a workout exercise with weight values `[100]`; the exercise row is
written, yet the stored `best_weight` stays `50` instead of
`max(50, 100) = 100`. -/
theorem C1_counterexample :
    (Store.bestWeightOf
      (Store.saveWorkoutDb
        (⟨[], [], [⟨0, ['b'], some 50, none, none, none⟩]⟩ : Store.DB)
        true 0 ['P'] [⟨['b'], [], 1, [10], [100]⟩])
      0 ['b'] = some (some 50)) ∧
    (Store.saveWorkoutDb
        (⟨[], [], [⟨0, ['b'], some 50, none, none, none⟩]⟩ : Store.DB)
        true 0 ['P'] [⟨['b'], [], 1, [10], [100]⟩]).workout_exercises ≠ [] ∧
    (50 : Rat) ≠ max 50 100 :=
  ⟨by decide, by decide, by norm_num⟩

/-! ## Claim C7 -/

/-- The non-null rows of the duration query, viewed as their duration values:
filtering on `isSome` and then reading the value (with the `|| 0` fallback)
is the same as `filterMap`. -/
theorem nonNullRows_map_getD (ws : List Analytics.DurationRow) :
    (Analytics.nonNullRows ws).map (fun w => w.duration_minutes.getD 0) =
      ws.filterMap (fun w => w.duration_minutes) := by
  induction ws with
  | nil => rfl
  | cons w ws ih =>
    cases hw : w.duration_minutes with
    | none => simpa [Analytics.nonNullRows, List.filter_cons, hw] using ih
    | some d => simpa [Analytics.nonNullRows, List.filter_cons, hw] using ih

/-- Folding the sum accumulator equals adding the mapped list's sum. -/
theorem foldl_add_getD (l : List Analytics.DurationRow) (a : Rat) :
    l.foldl (fun sum w => sum + w.duration_minutes.getD 0) a =
      a + (l.map (fun w => w.duration_minutes.getD 0)).sum := by
  induction l generalizing a with
  | nil => simp
  | cons w l ih => simp [ih, add_assoc]

/-- Claim C7: the average-workout-duration aggregate equals the arithmetic
mean of `duration_minutes` over exactly the workouts with non-null duration,
and is zero when there is no such workout. -/
theorem C7_average_duration (ws : List Analytics.DurationRow) :
    Analytics.avgTime ws = Analytics.specMeanDuration ws ∧
    (ws.filterMap (fun w => w.duration_minutes) = [] → Analytics.avgTime ws = 0) := by
  have hmap := nonNullRows_map_getD ws
  have hlen : (Analytics.nonNullRows ws).length =
      (ws.filterMap (fun w => w.duration_minutes)).length := by
    rw [← hmap, List.length_map]
  have hsum : Analytics.durationSum (Analytics.nonNullRows ws) =
      (ws.filterMap (fun w => w.duration_minutes)).sum := by
    rw [Analytics.durationSum, foldl_add_getD, hmap, zero_add]
  constructor
  · unfold Analytics.avgTime Analytics.specMeanDuration
    rcases eq_or_ne (ws.filterMap (fun w => w.duration_minutes)) [] with hds | hds
    · have : (Analytics.nonNullRows ws).length = 0 := by simp [hlen, hds]
      simp [this, hds]
    · have hpos : 0 < (Analytics.nonNullRows ws).length := by
        rw [hlen]
        exact List.length_pos.mpr hds
      rw [if_pos hpos, if_neg hds, hsum, hlen]
  · intro hds
    unfold Analytics.avgTime
    have : (Analytics.nonNullRows ws).length = 0 := by simp [hlen, hds]
    simp [this]

/-- Witness for C7 at the empty workout list. -/
theorem C7_witness : Analytics.avgTime [] = 0 :=
  (C7_average_duration []).2 rfl

/-! ## Claim C2 -/

/-- `handleLike` never writes the `workout_shares` table: both branches only
touch `workout_likes` and client state. -/
theorem handleLike_dbShares (u sid : Nat) (s : Social.SocialState) :
    (Social.handleLike u sid s).dbShares = s.dbShares := by
  unfold Social.handleLike
  split
  · rfl
  · split <;> rfl

/-- Bumping the displayed count of share `sid` commutes with looking the
share up, for any id-preserving update `g`. -/
theorem find?_map_bump (g : Social.ShareRow → Social.ShareRow)
    (hg : ∀ w, (g w).id = w.id) (sid : Nat) (l : List Social.ShareRow) :
    (l.map (fun w => if w.id = sid then g w else w)).find? (fun w => w.id = sid) =
      (l.find? (fun w => w.id = sid)).map g := by
  induction l with
  | nil => rfl
  | cons w l ih =>
    by_cases h : w.id = sid
    · have hgw : ((g w).id = sid) := by rw [hg w, h]
      simp [h, hgw]
    · simp [h, ih]

/-- The displayed likes count after a branch of `handleLike` that maps a
bump of `k` over `sharedWorkouts`. -/
theorem displayedLikes_bump (k : Int) (sid : Nat) (l : List Social.ShareRow) :
    ((l.map (fun w => if w.id = sid then { w with likes_count := w.likes_count + k }
        else w)).find? (fun w => w.id = sid)).map (fun w => w.likes_count) =
      ((l.find? (fun w => w.id = sid)).map (fun w => w.likes_count)).map
        (fun c => c + k) := by
  rw [find?_map_bump (fun w => { w with likes_count := w.likes_count + k })
    (fun w => rfl) sid l]
  cases l.find? (fun w => w.id = sid) <;> rfl

/-- Toggling the like of a share twice restores the client's
`sharedWorkouts` copies exactly, from any state. -/
theorem handleLike_twice_sharedWorkouts (u sid : Nat) (s : Social.SocialState) :
    (Social.handleLike u sid (Social.handleLike u sid s)).sharedWorkouts =
      s.sharedWorkouts := by
  have hcomp : ∀ (l : List Social.ShareRow) (k : Int),
      (l.map (fun w => if w.id = sid then { w with likes_count := w.likes_count + k }
          else w)).map
        (fun w => if w.id = sid then { w with likes_count := w.likes_count + (-k) }
          else w) = l := by
    intro l k
    rw [List.map_map]
    have hpt : ∀ w : Social.ShareRow,
        (fun w => if w.id = sid then { w with likes_count := w.likes_count + (-k) }
          else w)
        ((fun w => if w.id = sid then { w with likes_count := w.likes_count + k }
          else w) w) = w := by
      intro w
      obtain ⟨wid, wc⟩ := w
      by_cases h : wid = sid
      · simp only [h, if_pos]
        simp
      · simp [h]
    calc (l.map _) = l.map id := List.map_congr_left (fun w _ => hpt w)
    _ = l := List.map_id l
  by_cases hc : s.likedWorkouts.contains sid
  · -- liked → unliked, then the forced re-insert succeeds
    have hs1 : Social.handleLike u sid s =
        { s with
          dbLikes := s.dbLikes.filter (fun r => !(r.share_id = sid ∧ r.user_id = u)),
          likedWorkouts := s.likedWorkouts.filter (fun x => x ≠ sid),
          sharedWorkouts := s.sharedWorkouts.map (fun w =>
            if w.id = sid then { w with likes_count := w.likes_count - 1 } else w) } := by
      unfold Social.handleLike
      rw [if_pos hc]
    have hc1 : ((Social.handleLike u sid s).likedWorkouts.contains sid) = false := by
      rw [hs1]
      simp
    have hrow1 : ((Social.handleLike u sid s).dbLikes.any
        (fun r => r.share_id = sid ∧ r.user_id = u)) = false := by
      rw [hs1]
      apply List.any_eq_false.mpr
      intro r hr hcontra
      have h2 := (List.mem_filter.mp hr).2
      rw [hcontra] at h2
      simp at h2
    conv_lhs => rw [Social.handleLike,
      if_neg (by rw [hc1]; exact Bool.false_ne_true),
      if_neg (by rw [hrow1]; exact Bool.false_ne_true)]
    simp only [hs1]
    have := hcomp s.sharedWorkouts (-1)
    simpa [sub_eq_add_neg] using this
  · by_cases hrow : s.dbLikes.any (fun r => r.share_id = sid ∧ r.user_id = u)
    · -- client thinks unliked but a row exists: the insert throws, nothing changes
      have hs1 : Social.handleLike u sid s = s := by
        unfold Social.handleLike
        rw [if_neg hc, if_pos hrow]
      rw [hs1, hs1]
    · -- unliked → liked, then unliked again
      have hs1 : Social.handleLike u sid s =
          { s with
            dbLikes := { share_id := sid, user_id := u } :: s.dbLikes,
            likedWorkouts := sid :: s.likedWorkouts,
            sharedWorkouts := s.sharedWorkouts.map (fun w =>
              if w.id = sid then { w with likes_count := w.likes_count + 1 } else w) } := by
        unfold Social.handleLike
        rw [if_neg hc, if_neg hrow]
      have hc1 : ((Social.handleLike u sid s).likedWorkouts.contains sid) = true := by
        rw [hs1]
        simp
      conv_lhs => rw [Social.handleLike, if_pos hc1]
      simp only [hs1]
      have := hcomp s.sharedWorkouts 1
      simpa [sub_eq_add_neg] using this

/-- Any even number of consecutive like toggles restores the client's
`sharedWorkouts` copies. -/
theorem handleLike_iterate_even (u sid : Nat) (n : Nat) :
    ∀ s : Social.SocialState,
      ((Social.handleLike u sid)^[2 * n] s).sharedWorkouts = s.sharedWorkouts := by
  induction n with
  | zero => intro s; rfl
  | succ m ih =>
    intro s
    rw [Nat.mul_succ, Function.iterate_add_apply]
    have h2 : (Social.handleLike u sid)^[2] s =
        Social.handleLike u sid (Social.handleLike u sid s) := rfl
    rw [h2, ih, handleLike_twice_sharedWorkouts]

/-- Claim C2 (amended): from an unliked state, `handleLike` inserts the
`workout_like` row and increments the client-displayed `likes_count`
together; a second `handleLike` deletes the row and decrements it again; the
stored `workout_shares.likes_count` is never written by either transition;
and any equal number of like/unlike toggles returns the displayed
`likes_count` (and the untouched stored one) to its original value. -/
theorem C2_like_toggle (u sid : Nat) (s : Social.SocialState)
    (hc : s.likedWorkouts.contains sid = false)
    (hrow : (⟨sid, u⟩ : Social.LikeRow) ∉ s.dbLikes) :
    ((⟨sid, u⟩ : Social.LikeRow) ∈ (Social.handleLike u sid s).dbLikes) ∧
    Social.displayedLikes (Social.handleLike u sid s) sid =
      (Social.displayedLikes s sid).map (fun c => c + 1) ∧
    ((⟨sid, u⟩ : Social.LikeRow) ∉
      (Social.handleLike u sid (Social.handleLike u sid s)).dbLikes) ∧
    Social.displayedLikes (Social.handleLike u sid (Social.handleLike u sid s)) sid =
      (Social.displayedLikes (Social.handleLike u sid s) sid).map (fun c => c - 1) ∧
    (Social.handleLike u sid s).dbShares = s.dbShares ∧
    (Social.handleLike u sid (Social.handleLike u sid s)).dbShares = s.dbShares ∧
    (∀ n, ((Social.handleLike u sid)^[2 * n] s).sharedWorkouts = s.sharedWorkouts) := by
  have hany : (s.dbLikes.any (fun r => r.share_id = sid ∧ r.user_id = u)) = false := by
    apply List.any_eq_false.mpr
    intro r hr hcontra
    apply hrow
    have hreq : r = (⟨sid, u⟩ : Social.LikeRow) := by
      obtain ⟨rs, ru⟩ := r
      simp only [decide_eq_true_eq] at hcontra
      simp_all
    rwa [hreq] at hr
  have hs1 : Social.handleLike u sid s =
      { s with
        dbLikes := { share_id := sid, user_id := u } :: s.dbLikes,
        likedWorkouts := sid :: s.likedWorkouts,
        sharedWorkouts := s.sharedWorkouts.map (fun w =>
          if w.id = sid then { w with likes_count := w.likes_count + 1 } else w) } := by
    unfold Social.handleLike
    rw [if_neg (by rw [hc]; exact Bool.false_ne_true),
      if_neg (by rw [hany]; exact Bool.false_ne_true)]
  have hc1 : ((Social.handleLike u sid s).likedWorkouts.contains sid) = true := by
    rw [hs1]
    simp
  have hs2 : Social.handleLike u sid (Social.handleLike u sid s) =
      { Social.handleLike u sid s with
        dbLikes := (Social.handleLike u sid s).dbLikes.filter
          (fun r => !(r.share_id = sid ∧ r.user_id = u)),
        likedWorkouts := (Social.handleLike u sid s).likedWorkouts.filter
          (fun x => x ≠ sid),
        sharedWorkouts := (Social.handleLike u sid s).sharedWorkouts.map (fun w =>
          if w.id = sid then { w with likes_count := w.likes_count - 1 } else w) } := by
    conv_lhs => rw [Social.handleLike, if_pos hc1]
  refine ⟨?_, ?_, ?_, ?_, handleLike_dbShares u sid s, ?_, ?_⟩
  · rw [hs1]
    exact List.mem_cons_self _ _
  · rw [hs1]
    unfold Social.displayedLikes
    exact displayedLikes_bump 1 sid s.sharedWorkouts
  · rw [hs2]
    intro hmem
    have := (List.mem_filter.mp hmem).2
    simp at this
  · rw [hs2]
    unfold Social.displayedLikes
    have := displayedLikes_bump (-1) sid (Social.handleLike u sid s).sharedWorkouts
    simpa [sub_eq_add_neg] using this
  · rw [handleLike_dbShares, handleLike_dbShares]
  · intro n
    exact handleLike_iterate_even u sid n s

/-- Counterexample to C2 as stated: on the unliked-to-liked transition the
`workout_like` row is inserted, but the share's stored `likes_count` (in
`workout_shares`) remains `0` instead of being incremented to `1`; only the
client-side copy moves. -/
theorem C2_counterexample :
    ((⟨1, 7⟩ : Social.LikeRow) ∈
      (Social.handleLike 7 1
        (⟨[⟨1, 0⟩], [], [], [⟨1, 0⟩]⟩ : Social.SocialState)).dbLikes) ∧
    Social.storedLikes
      (Social.handleLike 7 1 (⟨[⟨1, 0⟩], [], [], [⟨1, 0⟩]⟩ : Social.SocialState)) 1 =
      some 0 ∧
    some (0 : Int) ≠ some (0 + 1 : Int) ∧
    Social.displayedLikes
      (Social.handleLike 7 1 (⟨[⟨1, 0⟩], [], [], [⟨1, 0⟩]⟩ : Social.SocialState)) 1 =
      some 1 := by
  refine ⟨by decide, by decide, by decide, by decide⟩

/-- Witness for C2 at a concrete fresh state. -/
theorem C2_witness :
    (⟨1, 7⟩ : Social.LikeRow) ∈
      (Social.handleLike 7 1
        (⟨[⟨1, 0⟩], [], [], [⟨1, 0⟩]⟩ : Social.SocialState)).dbLikes :=
  (C2_like_toggle 7 1 ⟨[⟨1, 0⟩], [], [], [⟨1, 0⟩]⟩ (by decide) (by decide)).1

/-! ## Claim C6 -/

/-- Claim C6: achievement granting is idempotent.  Evaluating an achievement
twice in succession equals evaluating it once, the `user_achievements` table
stays duplicate-free under the unique-constraint-respecting insert, and for
the concrete "First Workout" achievement (`workouts_count` = 1, reward 100)
a double evaluation after the first workout grants one row and adds the
reward once. -/
theorem C6_achievement_idempotent (u : Nat) (a : Achievements.AchievementDef)
    (agg : Nat) (s : Achievements.GamState) (hnd : s.user_achievements.Nodup) :
    Achievements.evalAchievement u a agg (Achievements.evalAchievement u a agg s) =
      Achievements.evalAchievement u a agg s ∧
    (Achievements.evalAchievement u a agg s).user_achievements.Nodup ∧
    (Achievements.evalAchievement 0 (⟨0, 1, 100⟩ : Achievements.AchievementDef) 1
      (Achievements.evalAchievement 0 (⟨0, 1, 100⟩ : Achievements.AchievementDef) 1
        (⟨[], fun _ => 0⟩ : Achievements.GamState))).total_points 0 = 100 ∧
    (Achievements.evalAchievement 0 (⟨0, 1, 100⟩ : Achievements.AchievementDef) 1
      (Achievements.evalAchievement 0 (⟨0, 1, 100⟩ : Achievements.AchievementDef) 1
        (⟨[], fun _ => 0⟩ : Achievements.GamState))).user_achievements = [(0, 0)] := by
  refine ⟨?_, ?_, by decide, by decide⟩
  · unfold Achievements.evalAchievement
    by_cases hcond : a.requirement_value ≤ agg ∧ (u, a.id) ∉ s.user_achievements
    · rw [if_pos hcond]
      have hmem : (u, a.id) ∈ Achievements.insertUnique (u, a.id) s.user_achievements := by
        unfold Achievements.insertUnique
        split
        · assumption
        · exact List.mem_cons_self _ _
      split <;> rename_i h2
      · exact absurd hmem h2.2
      · rfl
    · rw [if_neg hcond, if_neg hcond]
  · unfold Achievements.evalAchievement
    split
    · show (Achievements.insertUnique (u, a.id) s.user_achievements).Nodup
      unfold Achievements.insertUnique
      split <;> rename_i hmem2
      · exact hnd
      · exact List.nodup_cons.mpr ⟨hmem2, hnd⟩
    · exact hnd

/-- Witness for C6 at a concrete fresh state. -/
theorem C6_witness :
    (Achievements.evalAchievement 0 (⟨0, 1, 100⟩ : Achievements.AchievementDef) 1
      (Achievements.evalAchievement 0 (⟨0, 1, 100⟩ : Achievements.AchievementDef) 1
        (⟨[], fun _ => 0⟩ : Achievements.GamState))).total_points 0 = 100 :=
  (C6_achievement_idempotent 0 ⟨0, 1, 100⟩ 1 ⟨[], fun _ => 0⟩ (by decide)).2.2.1

/-! ## Claim C8 -/

/-- The application-level invariant of the workout builder: the parallel
per-set arrays agree with the `sets` field. -/
def setsInvariant (l : List Workout.WorkoutExercise) : Prop :=
  ∀ e ∈ l, e.reps.length = e.sets ∧ e.weight.length = e.sets

/-- An element of `modifyAt i f l` is either an untouched element of `l` or
the image under `f` of the element at position `i`. -/
theorem mem_modifyAt {f : Workout.WorkoutExercise → Workout.WorkoutExercise}
    {i : Nat} {l : List Workout.WorkoutExercise} {e : Workout.WorkoutExercise}
    (he : e ∈ Workout.modifyAt i f l) :
    e ∈ l ∨ ∃ x, l[i]? = some x ∧ e = f x := by
  induction l generalizing i with
  | nil => simp [Workout.modifyAt] at he
  | cons x xs ih =>
    cases i with
    | zero =>
      simp only [Workout.modifyAt] at he
      rcases List.mem_cons.mp he with h | h
      · exact Or.inr ⟨x, by simp, h⟩
      · exact Or.inl (List.mem_cons_of_mem x h)
    | succ i' =>
      simp only [Workout.modifyAt] at he
      rcases List.mem_cons.mp he with h | h
      · exact Or.inl (h ▸ List.mem_cons_self x xs)
      · rcases ih h with h2 | ⟨y, hy, hey⟩
        · exact Or.inl (List.mem_cons_of_mem x h2)
        · exact Or.inr ⟨y, by simpa using hy, hey⟩


/-- Claim C8: every exercise-editing operation of the workout builder
preserves `reps.length = sets = weight.length` (for the set operations,
under the UI's guarantee that the set index is among the rendered indices
`0 … sets-1`), the state built from scratch satisfies it, and therefore
every `workout_exercise` row submitted by `saveWorkout` satisfies it. -/
theorem C8_parallel_arrays_invariant (l : List Workout.WorkoutExercise)
    (hinv : setsInvariant l) :
    setsInvariant (Workout.addExercise l) ∧
    (∀ i, setsInvariant (Workout.addSet i l)) ∧
    (∀ i j, (∀ x, l[i]? = some x → j < x.sets) →
      setsInvariant (Workout.removeSet i j l)) ∧
    (∀ i j v, (∀ x, l[i]? = some x → j < x.sets) →
      setsInvariant (Workout.updateSetReps i j v l)) ∧
    (∀ i j v, (∀ x, l[i]? = some x → j < x.sets) →
      setsInvariant (Workout.updateSetWeight i j v l)) ∧
    (∀ i, setsInvariant (Workout.removeExercise i l)) ∧
    (∀ wid, ∀ r ∈ Workout.exercisePayload wid l,
      r.reps.length = r.sets ∧ r.weight.length = r.sets) := by
  have hofGet : ∀ {i : Nat} {x : Workout.WorkoutExercise}, l[i]? = some x → x ∈ l :=
    fun h => List.getElem?_mem h
  refine ⟨?_, ?_, ?_, ?_, ?_, ?_, ?_⟩
  · intro e he
    rcases List.mem_append.mp he with h | h
    · exact hinv e h
    · rcases List.mem_singleton.mp h with rfl
      exact ⟨rfl, rfl⟩
  · intro i e he
    rcases mem_modifyAt he with h | ⟨x, hx, rfl⟩
    · exact hinv e h
    · obtain ⟨h1, h2⟩ := hinv x (hofGet hx)
      simp [h1, h2]
  · intro i j hj e he
    rcases mem_modifyAt he with h | ⟨x, hx, rfl⟩
    · exact hinv e h
    · obtain ⟨h1, h2⟩ := hinv x (hofGet hx)
      have hjx := hj x hx
      have hj1 : j < x.reps.length := by rw [h1]; exact hjx
      have hj2 : j < x.weight.length := by rw [h2]; exact hjx
      by_cases hs : 1 < x.sets
      · rw [if_pos hs]
        refine ⟨?_, ?_⟩
        · show (x.reps.eraseIdx j).length = x.sets - 1
          rw [List.length_eraseIdx, if_pos hj1, h1]
        · show (x.weight.eraseIdx j).length = x.sets - 1
          rw [List.length_eraseIdx, if_pos hj2, h2]
      · rw [if_neg hs]
        exact ⟨h1, h2⟩
  · intro i j v hj e he
    rcases mem_modifyAt he with h | ⟨x, hx, rfl⟩
    · exact hinv e h
    · obtain ⟨h1, h2⟩ := hinv x (hofGet hx)
      simpa [List.length_set] using ⟨h1, h2⟩
  · intro i j v hj e he
    rcases mem_modifyAt he with h | ⟨x, hx, rfl⟩
    · exact hinv e h
    · obtain ⟨h1, h2⟩ := hinv x (hofGet hx)
      simpa [List.length_set] using ⟨h1, h2⟩
  · intro i e he
    exact hinv e ((List.eraseIdx_sublist l i).mem he)
  · intro wid r hr
    rcases List.mem_map.mp hr with ⟨e, he, rfl⟩
    exact hinv e (List.mem_of_mem_filter he)

/-- Witness for C8: the invariant facts at a concrete builder state. -/
theorem C8_witness :
    ((⟨[], [], 1, [0], [0]⟩ : Workout.WorkoutExercise).reps.length =
      (⟨[], [], 1, [0], [0]⟩ : Workout.WorkoutExercise).sets) ∧
    ((⟨[], [], 1, [0], [0]⟩ : Workout.WorkoutExercise).weight.length =
      (⟨[], [], 1, [0], [0]⟩ : Workout.WorkoutExercise).sets) :=
  (C8_parallel_arrays_invariant [⟨['e'], [], 2, [5, 3], [10, 20]⟩]
    (fun e he => by rcases List.mem_singleton.mp he with rfl; exact ⟨rfl, rfl⟩)).1
    ⟨[], [], 1, [0], [0]⟩ (by decide)


/-! ## Claim C9 -/

/-- Claim C9 (amended): the zod `workoutSchema` accepts exactly the inputs
whose trimmed name has length in `[1, 100]`, whose notes — if provided —
have length at most 500, and whose duration — if provided — lies in
`[1, 600]`; a name or duration outside its bounds contributes an issue
naming that field. -/
theorem C9_workout_schema (w : Validations.WorkoutInput) :
    (Validations.workoutSchemaAccepts w = true ↔
      (1 ≤ (jsTrim w.name).length ∧ (jsTrim w.name).length ≤ 100 ∧
       (∀ s, w.notes = some s → s.length ≤ 500) ∧
       (∀ d, w.duration_minutes = some d → 1 ≤ d ∧ d ≤ 600))) ∧
    ((jsTrim w.name).length < 1 ∨ 100 < (jsTrim w.name).length →
      ∃ i ∈ Validations.workoutSchemaIssues w, i.field = "name".toList) ∧
    (∀ d, w.duration_minutes = some d → (d < 1 ∨ 600 < d) →
      ∃ i ∈ Validations.workoutSchemaIssues w, i.field = "duration_minutes".toList) := by
  refine ⟨?_, ?_, ?_⟩
  · obtain ⟨name, notes, dur⟩ := w
    unfold Validations.workoutSchemaAccepts Validations.workoutSchemaIssues
    simp only [decide_eq_true_eq, List.append_eq_nil]
    cases notes <;> cases dur <;> simp_all [← List.length_eq_zero] <;>
      (try split_ifs) <;> (try simp_all) <;>
      (try rw [← @List.length_eq_zero _ (jsTrim name)]) <;> omega
  · intro h
    unfold Validations.workoutSchemaIssues
    rcases h with h | h
    · exact ⟨⟨"name".toList, "Workout name is required".toList⟩, by simp [h], rfl⟩
    · have h1 : ¬ (jsTrim w.name).length < 1 := by omega
      exact ⟨⟨"name".toList, "Workout name must be less than 100 characters".toList⟩,
        by simp [h, h1], rfl⟩
  · intro d hd hviol
    unfold Validations.workoutSchemaIssues
    rw [hd]
    rcases hviol with h | h
    · exact ⟨⟨"duration_minutes".toList, "Duration must be at least 1 minute".toList⟩,
        by simp [h], rfl⟩
    · have h1 : ¬ d < 1 := by intro hc; linarith
      exact ⟨⟨"duration_minutes".toList, "Duration must be less than 600 minutes".toList⟩,
        by simp [h, h1], rfl⟩

set_option maxRecDepth 4000 in
/-- Counterexample to C9 as stated: an input whose trimmed name length is in
`[1, 100]` and whose duration is absent is nevertheless rejected, because its
notes exceed 500 characters — the schema constrains a field the claim's
"exactly" clause omits. -/
theorem C9_counterexample :
    1 ≤ (jsTrim (⟨['o', 'k'], some (List.replicate 501 'b'), none⟩ :
      Validations.WorkoutInput).name).length ∧
    (jsTrim (⟨['o', 'k'], some (List.replicate 501 'b'), none⟩ :
      Validations.WorkoutInput).name).length ≤ 100 ∧
    (⟨['o', 'k'], some (List.replicate 501 'b'), none⟩ :
      Validations.WorkoutInput).duration_minutes = none ∧
    Validations.workoutSchemaAccepts
      (⟨['o', 'k'], some (List.replicate 501 'b'), none⟩ :
        Validations.WorkoutInput) = false := by
  refine ⟨by decide, by decide, rfl, by decide⟩

/-- Witness for C9: a too-long name yields a name-field issue. -/
theorem C9_witness :
    ∃ i ∈ Validations.workoutSchemaIssues
      (⟨List.replicate 101 'a', none, none⟩ : Validations.WorkoutInput),
      i.field = "name".toList :=
  (C9_workout_schema ⟨List.replicate 101 'a', none, none⟩).2.1 (by decide)


/-! ## Claim C3 -/

/-- Ordered insertion is a permutation of consing. -/
theorem insertDesc_perm (p : LbProfile) (l : List LbProfile) :
    (insertDesc p l).Perm (p :: l) := by
  induction l with
  | nil => exact List.Perm.refl _
  | cons q qs ih =>
    unfold insertDesc
    split
    · exact List.Perm.refl _
    · exact (List.Perm.cons q ih).trans (List.Perm.swap p q qs)

/-- The store-side ordering is a permutation of the profiles. -/
theorem sortByPointsDesc_perm (l : List LbProfile) :
    (sortByPointsDesc l).Perm l := by
  induction l with
  | nil => exact List.Perm.refl _
  | cons p ps ih =>
    exact (insertDesc_perm p (sortByPointsDesc ps)).trans (List.Perm.cons p ih)

/-- Ordered insertion preserves the descending-points ordering. -/
theorem insertDesc_pairwise (p : LbProfile) (l : List LbProfile)
    (h : List.Pairwise (fun a b => b.total_points ≤ a.total_points) l) :
    List.Pairwise (fun a b => b.total_points ≤ a.total_points) (insertDesc p l) := by
  induction l with
  | nil => simp [insertDesc]
  | cons q qs ih =>
    rcases List.pairwise_cons.mp h with ⟨hq, hqs⟩
    unfold insertDesc
    split <;> rename_i hlt
    · refine List.pairwise_cons.mpr ⟨?_, h⟩
      intro b hb
      rcases List.mem_cons.mp hb with rfl | hb
      · exact hlt.le
      · exact (hq b hb).trans hlt.le
    · refine List.pairwise_cons.mpr ⟨?_, ih hqs⟩
      intro b hb
      rcases List.mem_cons.mp ((insertDesc_perm p qs).mem_iff.mp hb) with rfl | h2
      · exact not_lt.mp hlt
      · exact hq b h2

/-- The store-side ordering is descending in `total_points`. -/
theorem sortByPointsDesc_pairwise (l : List LbProfile) :
    List.Pairwise (fun a b => b.total_points ≤ a.total_points) (sortByPointsDesc l) := by
  induction l with
  | nil => simp [sortByPointsDesc]
  | cons p ps ih => exact insertDesc_pairwise p _ ih

/-- In a descending, tie-free list the 0-based position of a member equals
the number of members with strictly more points. -/
theorem findIndex_eq_strictlyAhead (u : LbProfile) :
    ∀ s : List LbProfile,
      List.Pairwise (fun a b => b.total_points ≤ a.total_points) s →
      (∀ a ∈ s, ∀ b ∈ s, a.total_points = b.total_points → a = b) →
      (∀ a ∈ s, ∀ b ∈ s, a.user_id = b.user_id → a = b) →
      u ∈ s →
      findIndex (fun p => p.user_id = u.user_id) s =
        ((s.filter (fun v => u.total_points < v.total_points)).length : Int) := by
  intro s
  induction s with
  | nil => intro _ _ _ hu; cases hu
  | cons x rest ih =>
    intro hsort hpts huid hu
    rcases List.pairwise_cons.mp hsort with ⟨hx, hrest⟩
    by_cases hxu : x.user_id = u.user_id
    · have hxeq : x = u :=
        huid x (List.mem_cons_self x rest) u hu hxu
      have hfil : (x :: rest).filter (fun v => u.total_points < v.total_points) = [] := by
        apply List.filter_eq_nil_iff.mpr
        intro v hv
        rcases List.mem_cons.mp hv with rfl | hv
        · simp [hxeq]
        · have := hx v hv
          rw [hxeq] at this
          simp only [decide_eq_true_eq, not_lt]
          omega
      rw [hfil]
      simp [findIndex, hxu]
    · have hu2 : u ∈ rest := by
        rcases List.mem_cons.mp hu with rfl | h
        · exact absurd rfl hxu
        · exact h
      have hfr := ih hrest
        (fun a ha b hb => hpts a (List.mem_cons_of_mem x ha) b (List.mem_cons_of_mem x hb))
        (fun a ha b hb => huid a (List.mem_cons_of_mem x ha) b (List.mem_cons_of_mem x hb))
        hu2
      have hlt : u.total_points < x.total_points := by
        have hle := hx u hu2
        rcases lt_or_eq_of_le hle with h | h
        · exact h
        · exact absurd (congrArg LbProfile.user_id
            (hpts x (List.mem_cons_self x rest) u hu h.symm)) hxu
      have hnneg : ¬((((rest.filter
          (fun v => u.total_points < v.total_points)).length : Int)) < 0) := by
        omega
      simp only [findIndex, hxu]
      rw [hfr, if_neg hnneg, List.filter_cons_of_pos (by simpa using hlt)]
      simp only [decide_False, Bool.false_eq_true, if_false, List.length_cons]
      push_cast
      ring

/-- When a member is strictly below every other member, the number of
members strictly ahead of it is the list's length minus one. -/
theorem filter_gt_length_of_min (u : LbProfile) :
    ∀ l : List LbProfile, u ∈ l → l.Nodup →
      (∀ v ∈ l, v ≠ u → u.total_points < v.total_points) →
      (l.filter (fun v => u.total_points < v.total_points)).length = l.length - 1 := by
  intro l
  induction l with
  | nil => intro hu; cases hu
  | cons x xs ih =>
    intro hu hnd hmin
    rcases List.nodup_cons.mp hnd with ⟨hxnotin, hndxs⟩
    by_cases hx : x = u
    · subst hx
      have hxs : ∀ v ∈ xs, x.total_points < v.total_points := by
        intro v hv
        refine hmin v (List.mem_cons_of_mem x hv) ?_
        intro heq
        exact hxnotin (heq ▸ hv)
      have hfx : xs.filter (fun v => x.total_points < v.total_points) = xs :=
        List.filter_eq_self.mpr (fun v hv => decide_eq_true (hxs v hv))
      rw [List.filter_cons_of_neg (by simp), hfx]
      simp
    · have hu2 : u ∈ xs := by
        rcases List.mem_cons.mp hu with rfl | h
        · exact absurd rfl hx
        · exact h
      have hxlt : u.total_points < x.total_points :=
        hmin x (List.mem_cons_self x xs) hx
      have hrec := ih hu2 hndxs
        (fun v hv hne => hmin v (List.mem_cons_of_mem x hv) hne)
      rw [List.filter_cons_of_pos (by simpa using hxlt), List.length_cons, hrec]
      have : 1 ≤ xs.length := List.length_pos.mpr (List.ne_nil_of_mem hu2)
      simp only [List.length_cons]
      omega

/-- Claim C3 (amended): the leaderboard sorts profiles by `total_points`
descending and assigns positional rank (0-based index plus one).  When no
two profiles tie, this equals 1 + the number of profiles strictly ahead, a
user with the strictly highest points receives rank 1, and the user with the
strictly lowest points receives rank N; under ties the positional rank can
exceed 1 + the strictly-ahead count. -/
theorem C3_leaderboard_rank (l : List LbProfile) (u : LbProfile)
    (hu : u ∈ l) (hnd : l.Nodup)
    (hpts : ∀ a ∈ l, ∀ b ∈ l, a.total_points = b.total_points → a = b)
    (huid : ∀ a ∈ l, ∀ b ∈ l, a.user_id = b.user_id → a = b) :
    leaderboardRank l u.user_id = some (1 + (strictlyAhead l u : Int)) ∧
    ((∀ v ∈ l, v ≠ u → v.total_points < u.total_points) →
      leaderboardRank l u.user_id = some 1) ∧
    ((∀ v ∈ l, v ≠ u → u.total_points < v.total_points) →
      leaderboardRank l u.user_id = some (l.length : Int)) := by
  have hperm := sortByPointsDesc_perm l
  have hmem : ∀ a : LbProfile, a ∈ sortByPointsDesc l ↔ a ∈ l := fun a => hperm.mem_iff
  have hkey := findIndex_eq_strictlyAhead u (sortByPointsDesc l)
    (sortByPointsDesc_pairwise l)
    (fun a ha b hb => hpts a ((hmem a).mp ha) b ((hmem b).mp hb))
    (fun a ha b hb => huid a ((hmem a).mp ha) b ((hmem b).mp hb))
    ((hmem u).mpr hu)
  have hflen : ((sortByPointsDesc l).filter
      (fun v => u.total_points < v.total_points)).length =
      (l.filter (fun v => u.total_points < v.total_points)).length :=
    (hperm.filter _).length_eq
  have hrank : leaderboardRank l u.user_id = some (1 + (strictlyAhead l u : Int)) := by
    unfold leaderboardRank userRank
    rw [hkey, hflen]
    rw [if_pos (by omega)]
    unfold strictlyAhead
    congr 1
    ring
  refine ⟨hrank, ?_, ?_⟩
  · intro hmax
    rw [hrank]
    have hzero : strictlyAhead l u = 0 := by
      unfold strictlyAhead
      rw [List.length_eq_zero]
      apply List.filter_eq_nil_iff.mpr
      intro v hv
      simp only [decide_eq_true_eq, not_lt]
      by_cases hveq : v = u
      · subst hveq; omega
      · exact (hmax v hv hveq).le
    rw [hzero]
    rfl
  · intro hmin
    rw [hrank]
    have hlen := filter_gt_length_of_min u l hu hnd hmin
    have hone : 1 ≤ l.length := List.length_pos.mpr (List.ne_nil_of_mem hu)
    unfold strictlyAhead
    congr 1
    omega

/-- Counterexample to C3 as stated: two profiles tied at 10 points.  Profile
1 is (tied for) highest and has zero profiles strictly ahead, yet positional
ranking assigns it rank 2, not 1 = 1 + 0. -/
theorem C3_counterexample :
    Leaderboard.leaderboardRank [⟨1, 10⟩, ⟨2, 10⟩] 1 = some 2 ∧
    (∀ v ∈ [(⟨1, 10⟩ : Leaderboard.LbProfile), ⟨2, 10⟩],
      v.total_points ≤ (10 : Int)) ∧
    Leaderboard.strictlyAhead [⟨1, 10⟩, ⟨2, 10⟩] ⟨1, 10⟩ = 0 ∧
    some (2 : Int) ≠ some (1 + (0 : Int)) := by decide

/-- Witness for C3 at a concrete tie-free leaderboard. -/
theorem C3_witness :
    Leaderboard.leaderboardRank
      [⟨1, 30⟩, ⟨2, 20⟩, ⟨3, 10⟩] (⟨2, 20⟩ : Leaderboard.LbProfile).user_id =
      some (1 + (Leaderboard.strictlyAhead
        [⟨1, 30⟩, ⟨2, 20⟩, ⟨3, 10⟩] ⟨2, 20⟩ : Int)) :=
  (C3_leaderboard_rank [⟨1, 30⟩, ⟨2, 20⟩, ⟨3, 10⟩] ⟨2, 20⟩
    (by decide) (by decide) (by decide) (by decide)).1

end FitRanks
